import Mathlib

/-!
Verification of the ox OpenXR runtime's client/service split against its
natural-language specification.  The definitions below are a shallow
embedding of the C++ sources:

* src/src/client/runtime.cpp        (path interner, binding resolver, space location)
* src/src/client/service_connection.cpp (connect sequence, typed input queries)
* src/src/service/main.cpp          (message loop, handle allocator, session
                                     state machine, frame producer)
* src/src/protocol/messages.h       (message schema, shared-memory layout)

Machine integers are modelled as Nat with explicit reduction modulo 2^64
where the C++ uses uint64_t arithmetic that can wrap.  Implementation-defined
quantities (std::hash, driver callbacks, transport outcomes) are parameters
of the corresponding definitions.
-/

namespace Ox

/-- 2^64, the number of values of a C++ uint64_t. -/
def U64 : Nat := 2 ^ 64

/-- Lookup in an association list, mirroring std::unordered_map::find. -/
def assocFind {κ ν : Type} [DecidableEq κ] (k : κ) : List (κ × ν) → Option ν
  | [] => none
  | (k0, v0) :: rest => if k0 = k then some v0 else assocFind k rest

/-- Insert-or-assign in an association list, mirroring map[k] = v. -/
def assocSet {κ ν : Type} [DecidableEq κ] (k : κ) (v : ν) : List (κ × ν) → List (κ × ν)
  | [] => [(k, v)]
  | (k0, v0) :: rest => if k0 = k then (k, v) :: rest else (k0, v0) :: assocSet k v rest

/-- Erase a key from an association list, mirroring map.erase(k). -/
def assocErase {κ ν : Type} [DecidableEq κ] (k : κ) : List (κ × ν) → List (κ × ν)
  | [] => []
  | (k0, v0) :: rest => if k0 = k then assocErase k rest else (k0, v0) :: assocErase k rest

theorem assocFind_assocSet_self {κ ν : Type} [DecidableEq κ] (k : κ) (v : ν)
    (l : List (κ × ν)) : assocFind k (assocSet k v l) = some v := by
  induction l with
  | nil => simp [assocSet, assocFind]
  | cons p rest ih =>
    obtain ⟨k0, v0⟩ := p
    by_cases h : k0 = k
    · simp [assocSet, assocFind, h]
    · simp [assocSet, assocFind, h, ih]

theorem assocFind_assocSet_ne {κ ν : Type} [DecidableEq κ] (k k' : κ) (v : ν)
    (l : List (κ × ν)) (hne : k' ≠ k) :
    assocFind k (assocSet k' v l) = assocFind k l := by
  induction l with
  | nil => simp [assocSet, assocFind, hne]
  | cons p rest ih =>
    obtain ⟨k0, v0⟩ := p
    by_cases h : k0 = k'
    · subst h
      simp [assocSet, assocFind, hne]
    · by_cases h2 : k0 = k
      · subst h2
        simp [assocSet, assocFind, h]
      · simp [assocSet, assocFind, h, h2, ih]

theorem assocSet_mem {κ ν : Type} [DecidableEq κ] (k : κ) (v : ν)
    (l : List (κ × ν)) (p : κ × ν) (hp : p ∈ assocSet k v l) :
    p = (k, v) ∨ p ∈ l := by
  induction l with
  | nil =>
    simp [assocSet] at hp
    exact Or.inl hp
  | cons q rest ih =>
    obtain ⟨k0, v0⟩ := q
    by_cases h : k0 = k
    · simp [assocSet, h] at hp
      rcases hp with hp | hp
      · exact Or.inl (by simp [hp])
      · exact Or.inr (List.mem_cons_of_mem _ hp)
    · simp [assocSet, h] at hp
      rcases hp with hp | hp
      · exact Or.inr (by simp [hp])
      · rcases ih hp with h2 | h2
        · exact Or.inl h2
        · exact Or.inr (List.mem_cons_of_mem _ h2)

theorem assocFind_mem {κ ν : Type} [DecidableEq κ] (k : κ) (v : ν)
    (l : List (κ × ν)) (h : assocFind k l = some v) : (k, v) ∈ l := by
  induction l with
  | nil => simp [assocFind] at h
  | cons q rest ih =>
    obtain ⟨k0, v0⟩ := q
    by_cases hk : k0 = k
    · subst hk
      simp [assocFind] at h
      simp [h]
    · simp [assocFind, hk] at h
      exact List.mem_cons_of_mem _ (ih h)

/-- XrResult values that occur in the modelled entry points. -/
inductive XrResult
  | success
  | eventUnavailable
  | spaceBoundsUnavailable
  | errorValidationFailure
  | errorHandleInvalid
  | errorRuntimeFailure
deriving DecidableEq, Repr

/-! ## Path interner (src/src/client/runtime.cpp, xrStringToPath / xrPathToString)

The client keeps two process-global unordered maps,
g_path_to_string : XrPath → string and g_string_to_path : string → XrPath.
New tokens are produced by std::hash over the path string; std::hash is
implementation-defined, so it is a parameter (any function into uint64_t). -/

structure PathState where
  path_to_string : List (Nat × String)
  string_to_path : List (String × Nat)
deriving DecidableEq, Repr

def PathState.empty : PathState := ⟨[], []⟩

/-- xrStringToPath: return the existing token for the string, or create one
from the hash of the string and record both directions. -/
def xrStringToPath (hash : String → Nat) (st : PathState) (s : String) : PathState × Nat :=
  match assocFind s st.string_to_path with
  | some t => (st, t)
  | none =>
      let t := hash s
      (⟨assocSet t s st.path_to_string, assocSet s t st.string_to_path⟩, t)

/-- The string xrPathToString resolves for a token: the interned string, or
the fixed fallback "/unknown/path" when the token is not in the map. -/
def lookupPathString (st : PathState) (t : Nat) : String :=
  (assocFind t st.path_to_string).getD "/unknown/path"

/-- safe_copy_string: copy at most destSize - 1 characters and terminate. -/
def safeCopyString (destSize : Nat) (src : String) : String :=
  ((src.toList).take (destSize - 1)).asString

structure PathToStringOut where
  result : XrResult
  bufferCountOutput : Nat
  buffer : String
deriving DecidableEq, Repr

/-- xrPathToString: always succeeds; reports strlen + 1 as the count and
copies the resolved string (truncated to the buffer capacity). -/
def xrPathToString (st : PathState) (t : Nat) (bufferCapacityInput : Nat) : PathToStringOut :=
  let str := lookupPathString st t
  { result := .success
    bufferCountOutput := str.length + 1
    buffer := if 0 < bufferCapacityInput then safeCopyString bufferCapacityInput str else "" }

/-- Intern a list of strings in order, starting from a given interner state. -/
def internFrom (hash : String → Nat) (st : PathState) : List String → PathState
  | [] => st
  | s :: rest => internFrom hash (xrStringToPath hash st s).1 rest

/-- The interner state of one instance after interning the given strings. -/
def internAll (hash : String → Nat) (ss : List String) : PathState :=
  internFrom hash PathState.empty ss

/-- The token xrStringToPath reports for a string at the end of the instance's
intern history (a repeated intern returns the stored token). -/
def tokenOf (hash : String → Nat) (ss : List String) (s : String) : Nat :=
  (xrStringToPath hash (internAll hash ss) s).2

/-- The trace of tokens returned by the successive xrStringToPath calls. -/
def internTokensFrom (hash : String → Nat) (st : PathState) : List String → List Nat
  | [] => []
  | s :: rest =>
      (xrStringToPath hash st s).2 :: internTokensFrom hash (xrStringToPath hash st s).1 rest

def internTokens (hash : String → Nat) (ss : List String) : List Nat :=
  internTokensFrom hash PathState.empty ss

/-- C2 as the specification states it: for every hash function the
implementation may supply for std::hash (any function into uint64_t),
round-trip, distinctness and non-nullness of tokens hold for all strings
interned in one instance. -/
def PathInternClaim : Prop :=
  ∀ hash : String → Nat, (∀ s, hash s < U64) →
    ∀ ss : List String, ∀ s1 ∈ ss, ∀ s2 ∈ ss,
      lookupPathString (internAll hash ss) (tokenOf hash ss s1) = s1 ∧
      tokenOf hash ss s1 ≠ 0 ∧
      (s1 ≠ s2 → tokenOf hash ss s1 ≠ tokenOf hash ss s2)

/-- Invariant of the interner: every recorded string was interned, tokens are
exactly the hashes, and interned strings are present in both directions. -/
def InternInv (hash : String → Nat) (seen : List String) (st : PathState) : Prop :=
  (∀ s t, assocFind s st.string_to_path = some t → t = hash s ∧ s ∈ seen) ∧
  (∀ t s, assocFind t st.path_to_string = some s → t = hash s ∧ s ∈ seen) ∧
  (∀ s ∈ seen, assocFind s st.string_to_path = some (hash s) ∧
    assocFind (hash s) st.path_to_string = some s)

theorem stringToPath_inv (hash : String → Nat) (ss : List String)
    (hinj : ∀ s1 ∈ ss, ∀ s2 ∈ ss, hash s1 = hash s2 → s1 = s2)
    (st : PathState) (seen : List String) (s : String)
    (hs : s ∈ ss) (hseen : ∀ x ∈ seen, x ∈ ss)
    (hinv : InternInv hash seen st) :
    InternInv hash (seen ++ [s]) (xrStringToPath hash st s).1 := by
  obtain ⟨h1, h2, h3⟩ := hinv
  unfold xrStringToPath
  cases hfind : assocFind s st.string_to_path with
  | some t =>
    refine ⟨?_, ?_, ?_⟩
    · intro x tx hx
      obtain ⟨ha, hb⟩ := h1 x tx hx
      exact ⟨ha, by simp [hb]⟩
    · intro tx x hx
      obtain ⟨ha, hb⟩ := h2 tx x hx
      exact ⟨ha, by simp [hb]⟩
    · intro x hx
      rcases List.mem_append.mp hx with hx | hx
      · exact h3 x hx
      · have hxs : x = s := by simpa using hx
        subst hxs
        obtain ⟨ha, _⟩ := h1 x t hfind
        subst ha
        exact ⟨hfind, (h3 x (by exact (h1 x _ hfind).2)).2⟩
  | none =>
    simp only
    refine ⟨?_, ?_, ?_⟩
    · intro x tx hx
      by_cases hxs : x = s
      · subst hxs
        rw [assocFind_assocSet_self] at hx
        exact ⟨by injection hx; omega, by simp⟩
      · rw [assocFind_assocSet_ne _ _ _ _ (fun h => hxs h.symm)] at hx
        obtain ⟨ha, hb⟩ := h1 x tx hx
        exact ⟨ha, by simp [hb]⟩
    · intro tx x hx
      by_cases hts : tx = hash s
      · subst hts
        rw [assocFind_assocSet_self] at hx
        exact ⟨by injection hx with h; rw [h], by injection hx with h; simp [h]⟩
      · rw [assocFind_assocSet_ne _ _ _ _ (fun h => hts h.symm)] at hx
        obtain ⟨ha, hb⟩ := h2 tx x hx
        exact ⟨ha, by simp [hb]⟩
    · intro x hx
      rcases List.mem_append.mp hx with hx | hx
      · obtain ⟨ha, hb⟩ := h3 x hx
        have hxs : x ≠ s := by
          intro he
          subst he
          rw [ha] at hfind
          exact Option.noConfusion hfind
        constructor
        · show assocFind x (assocSet s (hash s) st.string_to_path) = some (hash x)
          rw [assocFind_assocSet_ne _ _ _ _ (fun h => hxs h.symm)]
          exact ha
        · have hhne : hash x ≠ hash s := by
            intro he
            exact hxs (hinj x (hseen x hx) s hs he)
          show assocFind (hash x) (assocSet (hash s) s st.path_to_string) = some x
          rw [assocFind_assocSet_ne _ _ _ _ (fun h => hhne h.symm)]
          exact hb
      · have hxs : x = s := by simpa using hx
        subst hxs
        exact ⟨assocFind_assocSet_self _ _ _, assocFind_assocSet_self _ _ _⟩

theorem internFrom_inv (hash : String → Nat) (ss : List String)
    (hinj : ∀ s1 ∈ ss, ∀ s2 ∈ ss, hash s1 = hash s2 → s1 = s2) :
    ∀ (rest : List String) (st : PathState) (seen : List String),
      (∀ x ∈ rest, x ∈ ss) → (∀ x ∈ seen, x ∈ ss) →
      InternInv hash seen st →
      InternInv hash (seen ++ rest) (internFrom hash st rest) := by
  intro rest
  induction rest with
  | nil =>
    intro st seen _ _ hinv
    simpa [internFrom] using hinv
  | cons s rest ih =>
    intro st seen hrest hseen hinv
    have hs : s ∈ ss := hrest s (by simp)
    have hstep := stringToPath_inv hash ss hinj st seen s hs hseen hinv
    have hseen2 : ∀ x ∈ seen ++ [s], x ∈ ss := by
      intro x hx
      rcases List.mem_append.mp hx with hx | hx
      · exact hseen x hx
      · simpa using (by simpa using hx : x = s) ▸ hs
    have := ih (xrStringToPath hash st s).1 (seen ++ [s])
      (fun x hx => hrest x (List.mem_cons_of_mem _ hx)) hseen2 hstep
    simpa [internFrom, List.append_assoc] using this

theorem internAll_inv (hash : String → Nat) (ss : List String)
    (hinj : ∀ s1 ∈ ss, ∀ s2 ∈ ss, hash s1 = hash s2 → s1 = s2) :
    InternInv hash ss (internAll hash ss) := by
  have := internFrom_inv hash ss hinj ss PathState.empty []
    (fun x hx => hx) (by intro x hx; simp at hx)
    ⟨by intro s t h; simp [PathState.empty, assocFind] at h,
     by intro t s h; simp [PathState.empty, assocFind] at h,
     by intro s hs; simp at hs⟩
  simpa [internAll] using this

theorem tokenOf_eq_hash (hash : String → Nat) (ss : List String)
    (hinj : ∀ s1 ∈ ss, ∀ s2 ∈ ss, hash s1 = hash s2 → s1 = s2)
    (s : String) (hs : s ∈ ss) : tokenOf hash ss s = hash s := by
  obtain ⟨_, _, h3⟩ := internAll_inv hash ss hinj
  obtain ⟨hfind, _⟩ := h3 s hs
  unfold tokenOf xrStringToPath
  rw [hfind]

/-- C2 (amended): provided the implementation-defined string hash collides on
no two strings interned in the instance and is non-zero on them, path
interning round-trips, and distinct strings receive distinct non-zero
tokens.  (The unconditional claim fails: see the counterexample.) -/
theorem path_intern_roundtrip (hash : String → Nat) (ss : List String)
    (hinj : ∀ s1 ∈ ss, ∀ s2 ∈ ss, hash s1 = hash s2 → s1 = s2)
    (hnz : ∀ s ∈ ss, hash s ≠ 0) :
    ∀ s1 ∈ ss, ∀ s2 ∈ ss,
      lookupPathString (internAll hash ss) (tokenOf hash ss s1) = s1 ∧
      tokenOf hash ss s1 ≠ 0 ∧
      (s1 ≠ s2 → tokenOf hash ss s1 ≠ tokenOf hash ss s2) := by
  intro s1 hs1 s2 hs2
  obtain ⟨_, _, h3⟩ := internAll_inv hash ss hinj
  obtain ⟨hfind1, hrev1⟩ := h3 s1 hs1
  refine ⟨?_, ?_, ?_⟩
  · rw [tokenOf_eq_hash hash ss hinj s1 hs1]
    unfold lookupPathString
    rw [hrev1]
    rfl
  · rw [tokenOf_eq_hash hash ss hinj s1 hs1]
    exact hnz s1 hs1
  · intro hne he
    rw [tokenOf_eq_hash hash ss hinj s1 hs1, tokenOf_eq_hash hash ss hinj s2 hs2] at he
    exact hne (hinj s1 hs1 s2 hs2 he)

/-- A concrete hash used to instantiate witnesses. -/
def hashW : String → Nat := fun s => s.length + 1

/-- Witness for path_intern_roundtrip at a concrete instance. -/
theorem path_intern_roundtrip_witness :
    ((∀ s1 ∈ ["/user/hand/left"], ∀ s2 ∈ ["/user/hand/left"], hashW s1 = hashW s2 → s1 = s2) ∧
      (∀ s ∈ ["/user/hand/left"], hashW s ≠ 0)) ∧
    (∀ s1 ∈ ["/user/hand/left"], ∀ s2 ∈ ["/user/hand/left"],
      lookupPathString (internAll hashW ["/user/hand/left"]) (tokenOf hashW ["/user/hand/left"] s1) = s1 ∧
      tokenOf hashW ["/user/hand/left"] s1 ≠ 0 ∧
      (s1 ≠ s2 → tokenOf hashW ["/user/hand/left"] s1 ≠ tokenOf hashW ["/user/hand/left"] s2)) :=
  ⟨⟨by decide, by decide⟩,
    path_intern_roundtrip hashW ["/user/hand/left"] (by decide) (by decide)⟩

/-- C2 (counterexample): the claim as stated fails.  Tokens are hash values
of a 64-bit hash; for a colliding hash (every function into uint64_t has
collisions) two distinct interned strings receive the same token and the
round trip of the earlier string returns the later string. -/
theorem pathInternClaim_cex : ¬ PathInternClaim := by
  intro h
  have h2 := h (fun _ => 1) (fun _ => (by decide : (1 : Nat) < U64))
    ["a", "b"] "a" (by decide) "b" (by decide)
  exact h2.2.2 (by decide) (by decide)

theorem internFrom_unknown (hash : String → Nat) (t : Nat) :
    ∀ (rest : List String) (st : PathState),
      assocFind t st.path_to_string = none →
      t ∉ internTokensFrom hash st rest →
      assocFind t (internFrom hash st rest).path_to_string = none := by
  intro rest
  induction rest with
  | nil =>
    intro st h _
    simpa [internFrom] using h
  | cons s rest ih =>
    intro st h hmem
    rw [internTokensFrom] at hmem
    simp only [List.mem_cons, not_or] at hmem
    rw [internFrom]
    apply ih _ _ hmem.2
    cases hfind : assocFind s st.string_to_path with
    | some tok =>
      simp only [xrStringToPath, hfind]
      exact h
    | none =>
      have hne : t ≠ hash s := by
        have h1 := hmem.1
        simpa [xrStringToPath, hfind] using h1
      simp only [xrStringToPath, hfind]
      show assocFind t (assocSet (hash s) s st.path_to_string) = none
      rw [assocFind_assocSet_ne _ _ _ _ (fun he => hne he.symm)]
      exact h

theorem asString_toList (s : String) : s.toList.asString = s := rfl

theorem safeCopyString_of_le (n : Nat) (s : String) (h : s.length ≤ n - 1) :
    safeCopyString n s = s := by
  unfold safeCopyString
  rw [List.take_of_length_le, asString_toList]
  exact h

/-- C10: a token never returned by xrStringToPath still succeeds in
xrPathToString, reporting the fixed string "/unknown/path" and its character
count 14 (13 characters plus the terminator). -/
theorem xrPathToString_unknown (hash : String → Nat) (ss : List String) (t cap : Nat)
    (h : t ∉ internTokens hash ss) (hcap : 14 ≤ cap) :
    xrPathToString (internAll hash ss) t cap =
      ⟨XrResult.success, 14, "/unknown/path"⟩ := by
  have hnone : assocFind t (internAll hash ss).path_to_string = none := by
    apply internFrom_unknown hash t ss PathState.empty
    · rfl
    · exact h
  unfold xrPathToString lookupPathString
  rw [hnone]
  have hpos : 0 < cap := by omega
  simp only [Option.getD_none, hpos, if_true]
  rw [safeCopyString_of_le cap "/unknown/path"
    (by have hlen : ("/unknown/path").length = 13 := rfl; omega)]
  rfl

/-- Witness for xrPathToString_unknown at a concrete instance. -/
theorem xrPathToString_unknown_witness :
    ((5 : Nat) ∉ internTokens hashW [] ∧ 14 ≤ 256) ∧
    xrPathToString (internAll hashW []) 5 256 = ⟨XrResult.success, 14, "/unknown/path"⟩ :=
  ⟨⟨by decide, by decide⟩, xrPathToString_unknown hashW [] 5 256 (by decide) (by decide)⟩

/-! ## Service core (src/src/service/main.cpp, src/src/protocol/messages.h)

Message types are those declared by the protocol header (ids 1..17 and 100).
The service's message loop handles a subset of them; every other declared
type falls into the default branch of the switch.  (The loop also names a
GET_INPUT_COMPONENT_STATE constant that the protocol header in the tree does
not declare; no declared message type reaches that case.) -/

inductive MessageType
  | connect | disconnect | createSession | destroySession
  | beginFrame | endFrame | shareGraphicsHandle
  | allocateHandle | getNextEvent
  | getRuntimeProperties | getSystemProperties
  | getViewConfigurations | getInteractionProfiles
  | getInputStateBoolean | getInputStateFloat | getInputStateVector2f
  | requestExitSession | response
deriving DecidableEq, Repr

/-- The wire identifiers of the message types (messages.h). -/
def MessageType.id : MessageType → Nat
  | .connect => 1
  | .disconnect => 2
  | .createSession => 3
  | .destroySession => 4
  | .beginFrame => 5
  | .endFrame => 6
  | .shareGraphicsHandle => 7
  | .allocateHandle => 8
  | .getNextEvent => 9
  | .getRuntimeProperties => 10
  | .getSystemProperties => 11
  | .getViewConfigurations => 12
  | .getInteractionProfiles => 13
  | .getInputStateBoolean => 14
  | .getInputStateFloat => 15
  | .getInputStateVector2f => 16
  | .requestExitSession => 17
  | .response => 100

inductive SessionState
  | unknown | idle | ready | synchronized | visible | focused | stopping | exiting
deriving DecidableEq, Repr

/-- The wire value of a session state (messages.h). -/
def SessionState.id : SessionState → Nat
  | .unknown => 0
  | .idle => 1
  | .ready => 2
  | .synchronized => 3
  | .visible => 4
  | .focused => 5
  | .stopping => 6
  | .exiting => 7

structure SessionStateEvent where
  session_handle : Nat
  state : SessionState
  timestamp : Nat
deriving DecidableEq, Repr

structure MessageHeader where
  type : MessageType
  sequence : Nat
  payload_size : Nat
  reserved : Nat
deriving DecidableEq, Repr

/-- A request as the service receives it: header fields plus the payload
bytes (ControlChannel::Receive reads exactly payload_size bytes, so the
byte list stands for both). -/
structure RequestMessage where
  type : MessageType
  sequence : Nat
  payload : List Nat
deriving DecidableEq, Repr

/-- A response payload together with its C++ sizeof, which the service puts
in the response header's payload_size field. -/
inductive ResponsePayload
  | empty
  | handle (h : Nat)
  | event (e : SessionStateEvent)
  | runtimeProperties
  | systemProperties
  | viewConfigurations
  | interactionProfiles
deriving DecidableEq, Repr

def ResponsePayload.size : ResponsePayload → Nat
  | .empty => 0
  | .handle _ => 8
  | .event _ => 24
  | .runtimeProperties => 144
  | .systemProperties => 284
  | .viewConfigurations => 32
  | .interactionProfiles => 1028

/-- Build the response header the handlers all construct: type RESPONSE, the
request's sequence number, and the payload's size. -/
def mkResponse (seq : Nat) (p : ResponsePayload) : MessageHeader × ResponsePayload :=
  (⟨.response, seq, p.size, 0⟩, p)

/-- OxService's mutable state: the session-state cell and active handle of
shared memory, the handle allocator, and the pending event queue. -/
structure ServiceState where
  session_state : SessionState
  active_session_handle : Nat
  next_handle : Nat
  allocated_handles : List (Nat × Nat)
  pending_events : List SessionStateEvent
deriving DecidableEq, Repr

/-- The state after OxService::Initialize: IDLE, no active session, handle
counter 1, nothing allocated, no events. -/
def initialService : ServiceState := ⟨.idle, 0, 1, [], []⟩

/-- OxService::AllocateHandle: return next_handle_ and post-increment it
(uint64_t, hence the reduction modulo 2^64). -/
def AllocateHandle (st : ServiceState) (ty : Nat) : ServiceState × Nat :=
  (⟨st.session_state, st.active_session_handle, (st.next_handle + 1) % U64,
    assocSet st.next_handle ty st.allocated_handles, st.pending_events⟩, st.next_handle)

/-- OxService::FreeHandle: erase the map entry; the counter is untouched. -/
def FreeHandle (st : ServiceState) (h : Nat) : ServiceState :=
  { st with allocated_handles := assocErase h st.allocated_handles }

/-- OxService::TransitionSessionState: on an actual change, store the new
state and append an event carrying the active session handle. -/
def TransitionSessionState (st : ServiceState) (new : SessionState) (now : Nat) : ServiceState :=
  if st.session_state = new then st
  else { st with
          session_state := new,
          pending_events := st.pending_events ++ [⟨st.active_session_handle, new, now⟩] }

/-- Little-endian 32-bit decode of the first four payload bytes
(reinterpret_cast of the request payload as AllocateHandleRequest). -/
def leU32 (bytes : List Nat) : Nat :=
  bytes.getD 0 0 + 256 * (bytes.getD 1 0 + 256 * (bytes.getD 2 0 + 256 * bytes.getD 3 0))

/-- OxService::HandleConnect. -/
def HandleConnect (st : ServiceState) (seq : Nat) :
    ServiceState × List (MessageHeader × ResponsePayload) :=
  (st, [mkResponse seq .empty])

/-- OxService::HandleCreateSession without the detached delay thread:
allocate a SESSION handle (wire value 2), publish it, transition to READY,
and answer with the handle. -/
def HandleCreateSession (st : ServiceState) (now seq : Nat) :
    ServiceState × List (MessageHeader × ResponsePayload) :=
  let r := AllocateHandle st 2
  let st2 := { r.1 with active_session_handle := r.2 }
  (TransitionSessionState st2 .ready now, [mkResponse seq (.handle r.2)])

/-- The detached thread HandleCreateSession spawns: after two delays it
transitions to SYNCHRONIZED and then FOCUSED. -/
def createSessionDeferred (st : ServiceState) (t2 t3 : Nat) : ServiceState :=
  TransitionSessionState (TransitionSessionState st .synchronized t2) .focused t3

/-- A create-session request once the detached thread has also run. -/
def CreateSessionComplete (st : ServiceState) (t1 t2 t3 seq : Nat) :
    ServiceState × List (MessageHeader × ResponsePayload) :=
  let r := HandleCreateSession st t1 seq
  (createSessionDeferred r.1 t2 t3, r.2)

/-- OxService::HandleDestroySession. -/
def HandleDestroySession (st : ServiceState) (now seq : Nat) :
    ServiceState × List (MessageHeader × ResponsePayload) :=
  let st1 :=
    if st.active_session_handle ≠ 0 then
      { FreeHandle st st.active_session_handle with active_session_handle := 0 }
    else st
  (TransitionSessionState st1 .idle now, [mkResponse seq .empty])

/-- OxService::HandleAllocateHandle: a payload smaller than
sizeof(AllocateHandleRequest) = 4 is rejected with no response at all. -/
def HandleAllocateHandle (st : ServiceState) (seq : Nat) (payload : List Nat) :
    ServiceState × List (MessageHeader × ResponsePayload) :=
  if payload.length < 4 then (st, [])
  else
    let r := AllocateHandle st (leU32 payload)
    (r.1, [mkResponse seq (.handle r.2)])

/-- OxService::HandleGetNextEvent: pop the oldest pending event, or answer
with an empty payload. -/
def HandleGetNextEvent (st : ServiceState) (seq : Nat) :
    ServiceState × List (MessageHeader × ResponsePayload) :=
  match st.pending_events with
  | [] => (st, [mkResponse seq .empty])
  | e :: rest => ({ st with pending_events := rest }, [mkResponse seq (.event e)])

/-- One iteration of OxService::MessageLoop: dispatch a received request.
Returns the new state, the responses sent, and whether the loop continues.
DISCONNECT exits the loop without a response; any type without a case
(BEGIN_FRAME, END_FRAME, SHARE_GRAPHICS_HANDLE, the three typed
GET_INPUT_STATE requests, REQUEST_EXIT_SESSION, RESPONSE) hits the default
branch, which only logs. -/
def MessageStep (st : ServiceState) (now : Nat) (req : RequestMessage) :
    ServiceState × List (MessageHeader × ResponsePayload) × Bool :=
  match req.type with
  | .connect => let r := HandleConnect st req.sequence; (r.1, r.2, true)
  | .disconnect => (st, [], false)
  | .createSession => let r := HandleCreateSession st now req.sequence; (r.1, r.2, true)
  | .destroySession => let r := HandleDestroySession st now req.sequence; (r.1, r.2, true)
  | .allocateHandle => let r := HandleAllocateHandle st req.sequence req.payload; (r.1, r.2, true)
  | .getNextEvent => let r := HandleGetNextEvent st req.sequence; (r.1, r.2, true)
  | .getRuntimeProperties => (st, [mkResponse req.sequence .runtimeProperties], true)
  | .getSystemProperties => (st, [mkResponse req.sequence .systemProperties], true)
  | .getViewConfigurations => (st, [mkResponse req.sequence .viewConfigurations], true)
  | .getInteractionProfiles => (st, [mkResponse req.sequence .interactionProfiles], true)
  | _ => (st, [], true)

/-- C1 as the specification states it: every request gets exactly one
response of type RESPONSE with the request's sequence number. -/
def EveryRequestAnswered : Prop :=
  ∀ (st : ServiceState) (now : Nat) (req : RequestMessage),
    ∃ r, (MessageStep st now req).2.1 = [r] ∧
      r.1.type = MessageType.response ∧ r.1.sequence = req.sequence

/-- C1 (counterexample): an AllocateHandle request whose payload is smaller
than sizeof(AllocateHandleRequest) receives no response at all, so the claim
fails at that input. -/
theorem everyRequestAnswered_cex : ¬ EveryRequestAnswered := by
  intro h
  obtain ⟨r, hr, _⟩ := h initialService 0 ⟨.allocateHandle, 7, []⟩
  simp [MessageStep, HandleAllocateHandle] at hr

/-- The requests the service's message loop actually handles with a valid
payload: the well-formed kinds of the switch; everything else (Disconnect,
a short AllocateHandle payload, and the types without a case) is excluded. -/
def HandledRequest (req : RequestMessage) : Prop :=
  match req.type with
  | .connect | .createSession | .destroySession | .getNextEvent
  | .getRuntimeProperties | .getSystemProperties
  | .getViewConfigurations | .getInteractionProfiles => True
  | .allocateHandle => 4 ≤ req.payload.length
  | _ => False

/-- C1 (amended): every request of a kind the message loop handles, with a
well-formed payload, receives exactly one response of type RESPONSE carrying
the request's sequence number; malformed AllocateHandle requests,
unrecognized types (including the typed input-state requests and
RequestExitSession, which have no case in the switch) and Disconnect receive
no response. -/
theorem handled_request_one_response (st : ServiceState) (now : Nat) (req : RequestMessage)
    (h : HandledRequest req) :
    ∃ p : ResponsePayload,
      (MessageStep st now req).2.1 = [(⟨MessageType.response, req.sequence, p.size, 0⟩, p)] := by
  obtain ⟨ty, seq, payload⟩ := req
  cases ty with
  | connect => exact ⟨.empty, rfl⟩
  | createSession => exact ⟨.handle st.next_handle, rfl⟩
  | destroySession => exact ⟨.empty, rfl⟩
  | allocateHandle =>
    simp only [HandledRequest] at h
    refine ⟨.handle st.next_handle, ?_⟩
    simp [MessageStep, HandleAllocateHandle, Nat.not_lt.mpr h, mkResponse, AllocateHandle]
  | getNextEvent =>
    cases hq : st.pending_events with
    | nil => exact ⟨.empty, by simp [MessageStep, HandleGetNextEvent, hq, mkResponse]⟩
    | cons e rest => exact ⟨.event e, by simp [MessageStep, HandleGetNextEvent, hq, mkResponse]⟩
  | getRuntimeProperties => exact ⟨.runtimeProperties, rfl⟩
  | getSystemProperties => exact ⟨.systemProperties, rfl⟩
  | getViewConfigurations => exact ⟨.viewConfigurations, rfl⟩
  | getInteractionProfiles => exact ⟨.interactionProfiles, rfl⟩
  | disconnect => exact absurd h (by simp [HandledRequest])
  | beginFrame => exact absurd h (by simp [HandledRequest])
  | endFrame => exact absurd h (by simp [HandledRequest])
  | shareGraphicsHandle => exact absurd h (by simp [HandledRequest])
  | getInputStateBoolean => exact absurd h (by simp [HandledRequest])
  | getInputStateFloat => exact absurd h (by simp [HandledRequest])
  | getInputStateVector2f => exact absurd h (by simp [HandledRequest])
  | requestExitSession => exact absurd h (by simp [HandledRequest])
  | response => exact absurd h (by simp [HandledRequest])

/-- Witness for handled_request_one_response at a concrete request. -/
theorem handled_request_one_response_witness :
    HandledRequest ⟨.connect, 3, []⟩ ∧
    ∃ p : ResponsePayload,
      (MessageStep initialService 0 ⟨.connect, 3, []⟩).2.1 =
        [(⟨MessageType.response, 3, p.size, 0⟩, p)] :=
  ⟨trivial, handled_request_one_response initialService 0 ⟨.connect, 3, []⟩ trivial⟩

/-- The payloads returned by n successive GetNextEvent round trips. -/
def drainN : ServiceState → Nat → List ResponsePayload
  | _, 0 => []
  | st, n + 1 =>
      (HandleGetNextEvent st 0).2.map Prod.snd ++ drainN (HandleGetNextEvent st 0).1 n

/-- C4 (amended): after a create-session request (including its deferred
transitions) from the Idle state, draining yields transitions to Ready,
Synchronized and Focused, in order; a request-exit-session message has no
case in the service's message loop, so it changes nothing, queues no
Stopping or Idle event, and is not even answered. -/
theorem session_state_sequence (st : ServiceState) (t1 t2 t3 seq : Nat)
    (hidle : st.session_state = SessionState.idle) (hq : st.pending_events = []) :
    drainN (CreateSessionComplete st t1 t2 t3 seq).1 3 =
      [.event ⟨st.next_handle, .ready, t1⟩,
       .event ⟨st.next_handle, .synchronized, t2⟩,
       .event ⟨st.next_handle, .focused, t3⟩] ∧
    ∀ (st2 : ServiceState) (now seq2 : Nat) (payload : List Nat),
      MessageStep st2 now ⟨.requestExitSession, seq2, payload⟩ = (st2, [], true) := by
  constructor
  · obtain ⟨ss, ah, nh, al, pe⟩ := st
    dsimp only at hidle hq
    subst hidle
    subst hq
    simp [CreateSessionComplete, HandleCreateSession, AllocateHandle, createSessionDeferred,
      TransitionSessionState, drainN, HandleGetNextEvent, mkResponse]
  · intro st2 now seq2 payload
    rfl

/-- Witness for session_state_sequence at a concrete state. -/
theorem session_state_sequence_witness :
    (initialService.session_state = SessionState.idle ∧ initialService.pending_events = []) ∧
    (drainN (CreateSessionComplete initialService 10 20 30 5).1 3 =
      [.event ⟨initialService.next_handle, .ready, 10⟩,
       .event ⟨initialService.next_handle, .synchronized, 20⟩,
       .event ⟨initialService.next_handle, .focused, 30⟩] ∧
    ∀ (st2 : ServiceState) (now seq2 : Nat) (payload : List Nat),
      MessageStep st2 now ⟨.requestExitSession, seq2, payload⟩ = (st2, [], true)) :=
  ⟨⟨rfl, rfl⟩, session_state_sequence initialService 10 20 30 5 rfl rfl⟩

/-- C4 as the specification states it for the exit path: after a
request-exit-session message, draining yields a Stopping event and then an
Idle event. -/
def RequestExitYieldsStoppingIdle : Prop :=
  ∀ (st : ServiceState) (now seq : Nat) (payload : List Nat),
    ∃ h1 h2 u1 u2,
      drainN (MessageStep st now ⟨.requestExitSession, seq, payload⟩).1 2 =
        [.event ⟨h1, .stopping, u1⟩, .event ⟨h2, .idle, u2⟩]

/-- C4 (counterexample): from a Focused session with an empty queue, a
request-exit-session message leaves the queue empty, so draining returns
empty payloads instead of Stopping and Idle events. -/
theorem requestExit_cex : ¬ RequestExitYieldsStoppingIdle := by
  intro h
  obtain ⟨h1, h2, u1, u2, he⟩ := h ⟨.focused, 5, 6, [(5, 2)], []⟩ 99 10 (List.replicate 8 0)
  simp [MessageStep, drainN, HandleGetNextEvent, mkResponse] at he

/-- A history of handle-allocator operations (control-channel handlers call
AllocateHandle and FreeHandle in some interleaving). -/
inductive AllocOp
  | alloc (ty : Nat)
  | free (h : Nat)
deriving DecidableEq, Repr

def countAllocs : List AllocOp → Nat
  | [] => 0
  | .alloc _ :: rest => countAllocs rest + 1
  | .free _ :: rest => countAllocs rest

/-- Run a history of allocator operations, collecting the returned handles. -/
def runAllocOps (st : ServiceState) : List AllocOp → ServiceState × List Nat
  | [] => (st, [])
  | .alloc ty :: rest =>
      ((runAllocOps (AllocateHandle st ty).1 rest).1,
        (AllocateHandle st ty).2 :: (runAllocOps (AllocateHandle st ty).1 rest).2)
  | .free h :: rest => runAllocOps (FreeHandle st h) rest

theorem runAllocOps_handles (ops : List AllocOp) :
    ∀ st : ServiceState, st.next_handle + countAllocs ops ≤ U64 →
      (runAllocOps st ops).2 =
        (List.range (countAllocs ops)).map (fun i => st.next_handle + i) := by
  induction ops with
  | nil => intro st _; simp [runAllocOps, countAllocs]
  | cons op rest ih =>
    intro st h
    cases op with
    | free h0 =>
      simp only [runAllocOps, countAllocs] at h ⊢
      exact ih _ h
    | alloc ty =>
      simp only [runAllocOps, countAllocs] at h ⊢
      have hn1 : st.next_handle + 1 ≤ U64 := by omega
      by_cases hlt : st.next_handle + 1 < U64
      · have hmod : (st.next_handle + 1) % U64 = st.next_handle + 1 := Nat.mod_eq_of_lt hlt
        have hrec := ih (AllocateHandle st ty).1 (by
          show (st.next_handle + 1) % U64 + countAllocs rest ≤ U64
          rw [hmod]; omega)
        rw [show (AllocateHandle st ty).2 = st.next_handle from rfl, hrec]
        show st.next_handle :: (List.range (countAllocs rest)).map
            (fun i => (st.next_handle + 1) % U64 + i) =
          (List.range (countAllocs rest + 1)).map (fun i => st.next_handle + i)
        rw [hmod, List.range_succ_eq_map, List.map_cons, List.map_map]
        refine congrArg₂ _ (by omega) ?_
        apply List.map_congr_left
        intro i _
        simp [Function.comp]
        omega
      · have heq : st.next_handle + 1 = U64 := by omega
        have hc0 : countAllocs rest = 0 := by omega
        have hrec := ih (AllocateHandle st ty).1 (by
          show (st.next_handle + 1) % U64 + countAllocs rest ≤ U64
          rw [heq, Nat.mod_self, hc0]
          exact Nat.zero_le _)
        rw [show (AllocateHandle st ty).2 = st.next_handle from rfl, hrec, hc0]
        simp [List.range_succ]

/-- C8: over any history of allocations and frees within one service life
(fewer than 2^64 allocations), the returned handles are exactly 1, 2, 3, ...
in order: all non-zero, strictly increasing (monotonic from 1 upward), and
pairwise distinct.  The handle list does not depend on the frees in the
history, so freed handles are never recycled. -/
theorem allocate_handle_unique (ops : List AllocOp) (hc : countAllocs ops < U64) :
    (runAllocOps initialService ops).2 =
      (List.range (countAllocs ops)).map (fun i => i + 1) ∧
    (∀ h ∈ (runAllocOps initialService ops).2, h ≠ 0) ∧
    List.Pairwise (· < ·) (runAllocOps initialService ops).2 ∧
    (runAllocOps initialService ops).2.Nodup := by
  have heq : (runAllocOps initialService ops).2 =
      (List.range (countAllocs ops)).map (fun i => 1 + i) := by
    have := runAllocOps_handles ops initialService (by
      show 1 + countAllocs ops ≤ U64
      omega)
    simpa [initialService] using this
  have heq2 : (runAllocOps initialService ops).2 =
      (List.range (countAllocs ops)).map (fun i => i + 1) := by
    rw [heq]
    apply List.map_congr_left
    intro i _
    omega
  refine ⟨heq2, ?_, ?_, ?_⟩
  · intro h hmem
    rw [heq2] at hmem
    obtain ⟨i, _, hi⟩ := List.mem_map.mp hmem
    omega
  · rw [heq2]
    exact (List.pairwise_lt_range _).map _ (by intro a b hab; omega)
  · rw [heq2]
    refine List.Nodup.map ?_ (List.nodup_range _)
    intro a b hab
    simp only at hab
    omega

/-- Witness for allocate_handle_unique at a concrete history. -/
theorem allocate_handle_unique_witness :
    countAllocs [AllocOp.alloc 2, AllocOp.free 1, AllocOp.alloc 5, AllocOp.alloc 3] < U64 ∧
    ((runAllocOps initialService [AllocOp.alloc 2, AllocOp.free 1, AllocOp.alloc 5, AllocOp.alloc 3]).2 =
      (List.range (countAllocs [AllocOp.alloc 2, AllocOp.free 1, AllocOp.alloc 5, AllocOp.alloc 3])).map
        (fun i => i + 1) ∧
    (∀ h ∈ (runAllocOps initialService [AllocOp.alloc 2, AllocOp.free 1, AllocOp.alloc 5, AllocOp.alloc 3]).2, h ≠ 0) ∧
    List.Pairwise (· < ·) (runAllocOps initialService [AllocOp.alloc 2, AllocOp.free 1, AllocOp.alloc 5, AllocOp.alloc 3]).2 ∧
    (runAllocOps initialService [AllocOp.alloc 2, AllocOp.free 1, AllocOp.alloc 5, AllocOp.alloc 3]).2.Nodup) :=
  ⟨by decide, allocate_handle_unique [AllocOp.alloc 2, AllocOp.free 1, AllocOp.alloc 5, AllocOp.alloc 3] (by decide)⟩

/-! ## Frame producer (src/src/service/main.cpp, FrameLoop / UpdatePoseData)

Driver callbacks are parameters; pose and FoV payloads are carried as
opaque values, since UpdatePoseData only copies them into shared memory. -/

structure OxPoseVal where
  position : Nat
  orientation : Nat
deriving DecidableEq, Repr

structure DriverModel where
  updateViewPose : Int → Nat → OxPoseVal
  displayFov : Nat
  updateControllerState : Int → Nat → OxPoseVal × Bool

structure ViewShm where
  pose : OxPoseVal
  poseTimestamp : Int
  fov : Nat
deriving DecidableEq, Repr

structure CtrlShm where
  pose : OxPoseVal
  timestamp : Int
  flags : Bool
deriving DecidableEq, Repr

/-- The frame fields of shared memory written by UpdatePoseData. -/
structure FrameShm where
  frame_id : Nat
  predicted_display_time : Int
  view_count : Nat
  view0 : ViewShm
  view1 : ViewShm
  ctrl0 : CtrlShm
  ctrl1 : CtrlShm
deriving DecidableEq, Repr

def zeroFrameShm : FrameShm :=
  ⟨0, 0, 0, ⟨⟨0, 0⟩, 0, 0⟩, ⟨⟨0, 0⟩, 0, 0⟩, ⟨⟨0, 0⟩, 0, false⟩, ⟨⟨0, 0⟩, 0, false⟩⟩

/-- OxService::UpdatePoseData: store frame_counter_++ as frame_id, the clock
reading as predicted_display_time, then the driver's per-eye poses, the FoV
and the controller states.  Returns the new counter and the frame fields. -/
def UpdatePoseData (drv : DriverModel) (counter : Nat) (now : Int) : Nat × FrameShm :=
  let frame_id := counter
  let c0 := drv.updateControllerState now 0
  let c1 := drv.updateControllerState now 1
  ((counter + 1) % U64,
    { frame_id := frame_id
      predicted_display_time := now
      view_count := 2
      view0 := ⟨drv.updateViewPose now 0, now, drv.displayFov⟩
      view1 := ⟨drv.updateViewPose now 1, now, drv.displayFov⟩
      ctrl0 := ⟨c0.1, now, c0.2⟩
      ctrl1 := ⟨c1.1, now, c1.2⟩ })

/-- The frame loop: counter and shared-memory frame after n ticks; tick k
reads the clock at instant k.  frame_counter_ starts at 0. -/
def FrameLoopRun (drv : DriverModel) (clock : Nat → Int) : Nat → Nat × FrameShm
  | 0 => (0, zeroFrameShm)
  | n + 1 => UpdatePoseData drv (FrameLoopRun drv clock n).1 (clock n)

theorem frameLoopRun_counter (drv : DriverModel) (clock : Nat → Int) :
    ∀ n : Nat, (FrameLoopRun drv clock n).1 = n % U64 := by
  intro n
  induction n with
  | zero => rfl
  | succ k ih =>
    show (UpdatePoseData drv (FrameLoopRun drv clock k).1 (clock k)).1 = (k + 1) % U64
    rw [show ∀ c t, (UpdatePoseData drv c t).1 = (c + 1) % U64 from fun _ _ => rfl, ih,
      Nat.mod_add_mod]

theorem frameLoopRun_fields (drv : DriverModel) (clock : Nat → Int) (k : Nat) :
    (FrameLoopRun drv clock (k + 1)).2.frame_id = k % U64 ∧
    (FrameLoopRun drv clock (k + 1)).2.predicted_display_time = clock k := by
  constructor
  · show (UpdatePoseData drv (FrameLoopRun drv clock k).1 (clock k)).2.frame_id = k % U64
    rw [show ∀ c t, (UpdatePoseData drv c t).2.frame_id = c from fun _ _ => rfl,
      frameLoopRun_counter]
  · rfl

/-- C9: across ticks i ≤ j (within one service life, j < 2^64 ticks), the
frame_id values stored in shared memory are non-decreasing, and, the steady
clock being monotone, so are the stored predicted_display_time values. -/
theorem frame_monotonicity (drv : DriverModel) (clock : Nat → Int) (i j : Nat)
    (hij : i ≤ j) (hj : j < U64)
    (hclock : ∀ a b : Nat, a ≤ b → clock a ≤ clock b) :
    (FrameLoopRun drv clock (i + 1)).2.frame_id ≤ (FrameLoopRun drv clock (j + 1)).2.frame_id ∧
    (FrameLoopRun drv clock (i + 1)).2.predicted_display_time ≤
      (FrameLoopRun drv clock (j + 1)).2.predicted_display_time := by
  obtain ⟨hfi, hti⟩ := frameLoopRun_fields drv clock i
  obtain ⟨hfj, htj⟩ := frameLoopRun_fields drv clock j
  constructor
  · rw [hfi, hfj, Nat.mod_eq_of_lt (by omega), Nat.mod_eq_of_lt hj]
    exact hij
  · rw [hti, htj]
    exact hclock i j hij

/-- A concrete driver used by witnesses. -/
def driverW : DriverModel := ⟨fun _ _ => ⟨0, 0⟩, 7, fun _ _ => (⟨0, 0⟩, true)⟩

/-- Witness for frame_monotonicity at a concrete clock and tick pair. -/
theorem frame_monotonicity_witness :
    ((1 : Nat) ≤ 2 ∧ (2 : Nat) < U64 ∧
      (∀ a b : Nat, a ≤ b → (fun n : Nat => (n : Int)) a ≤ (fun n : Nat => (n : Int)) b)) ∧
    ((FrameLoopRun driverW (fun n : Nat => (n : Int)) 2).2.frame_id ≤
      (FrameLoopRun driverW (fun n : Nat => (n : Int)) 3).2.frame_id ∧
    (FrameLoopRun driverW (fun n : Nat => (n : Int)) 2).2.predicted_display_time ≤
      (FrameLoopRun driverW (fun n : Nat => (n : Int)) 3).2.predicted_display_time) :=
  ⟨⟨by decide, by decide, fun a b h => by show (a : Int) ≤ (b : Int); exact_mod_cast h⟩,
    frame_monotonicity driverW (fun n : Nat => (n : Int)) 1 2 (by decide) (by decide)
      (fun a b h => by show (a : Int) ≤ (b : Int); exact_mod_cast h)⟩

/-! ## Frame publication order (C3, src/src/service/main.cpp, UpdatePoseData)

To reason about torn reads, each shared-memory cell records the tick whose
UpdatePoseData call last wrote it.  A producer tick is the ordered list of
its stores exactly as the code performs them: frame_id FIRST, then
predicted_display_time, view_count, the view poses, the FoVs and the
controller states.  A reader runs the seqlock protocol the specification
describes: read frame_id, copy frame.views, read frame_id again.  An
execution is an interleaving of the two (sequential consistency; the actual
hardware admits at least these executions). -/

inductive WriteStep
  | wFrameId (tick : Nat)
  | wTime (tick : Nat)
  | wViewCount (tick : Nat)
  | wViewPose (eye : Bool) (tick : Nat)
  | wViewFov (eye : Bool) (tick : Nat)
  | wCtrl (eye : Bool) (tick : Nat)
deriving DecidableEq, Repr

/-- The store order of one UpdatePoseData call (tick number as payload). -/
def updatePoseDataWrites (tick : Nat) : List WriteStep :=
  [.wFrameId tick, .wTime tick, .wViewCount tick,
   .wViewPose false tick, .wViewPose true tick,
   .wViewFov false tick, .wViewFov true tick,
   .wCtrl false tick, .wCtrl true tick]

/-- Shared frame cells, each carrying the tick that last wrote it. -/
structure SeqMem where
  frame_id : Nat
  time : Nat
  v0pose : Nat
  v0fov : Nat
  v1pose : Nat
  v1fov : Nat
deriving DecidableEq, Repr

def applyWrite (m : SeqMem) : WriteStep → SeqMem
  | .wFrameId t => { m with frame_id := t }
  | .wTime t => { m with time := t }
  | .wViewCount _ => m
  | .wViewPose false t => { m with v0pose := t }
  | .wViewPose true t => { m with v1pose := t }
  | .wViewFov false t => { m with v0fov := t }
  | .wViewFov true t => { m with v1fov := t }
  | .wCtrl _ _ => m

inductive ReadStep
  | rFidBefore | rV0pose | rV0fov | rV1pose | rV1fov | rFidAfter
deriving DecidableEq, Repr

/-- The reader protocol of the claim: bracket the copy of frame.views with
two frame_id reads. -/
def readerProgram : List ReadStep :=
  [.rFidBefore, .rV0pose, .rV0fov, .rV1pose, .rV1fov, .rFidAfter]

structure ReaderObs where
  fidBefore : Nat
  v0pose : Nat
  v0fov : Nat
  v1pose : Nat
  v1fov : Nat
  fidAfter : Nat
deriving DecidableEq, Repr

def applyRead (m : SeqMem) (o : ReaderObs) : ReadStep → ReaderObs
  | .rFidBefore => { o with fidBefore := m.frame_id }
  | .rV0pose => { o with v0pose := m.v0pose }
  | .rV0fov => { o with v0fov := m.v0fov }
  | .rV1pose => { o with v1pose := m.v1pose }
  | .rV1fov => { o with v1fov := m.v1fov }
  | .rFidAfter => { o with fidAfter := m.frame_id }

/-- Run an interleaving: true moves the producer, false moves the reader.
Returns the reader's observations when the schedule consumes both programs
exactly. -/
def runInterleaving : List Bool → List WriteStep → List ReadStep → SeqMem → ReaderObs →
    Option ReaderObs
  | [], [], [], _, o => some o
  | true :: sched, w :: ws, rs, m, o => runInterleaving sched ws rs (applyWrite m w) o
  | false :: sched, ws, r :: rs, m, o => runInterleaving sched ws rs m (applyRead m o r)
  | _, _, _, _, _ => none

/-- Shared memory as UpdatePoseData leaves it after tick 1 has fully run;
tick 2 is the producer program the reader races against. -/
def seqMemAfterTick1 : SeqMem := ⟨1, 1, 1, 1, 1, 1⟩

/-- C3 as the specification states it: in every interleaving of one producer
tick with the reader protocol, a reader that observes the same frame_id
before and after copying frame.views has copied view values written together
by one producer tick. -/
def SeqlockConsistent : Prop :=
  ∀ (sched : List Bool) (o : ReaderObs),
    runInterleaving sched (updatePoseDataWrites 2) readerProgram
      seqMemAfterTick1 ⟨0, 0, 0, 0, 0, 0⟩ = some o →
    o.fidBefore = o.fidAfter →
    (o.v0pose = o.v1pose ∧ o.v0fov = o.v1fov ∧ o.v0pose = o.v0fov)

/-- The interleaving that tears: the producer stores frame_id = 2 (its FIRST
store of the tick), the reader reads frame_id and copies view 0 (still tick
1's values), the producer writes both views, the reader copies view 1 (tick
2's values) and re-reads frame_id, still 2. -/
def tornSchedule : List Bool :=
  [true, false, false, false, true, true, true, true, true, true, false, false, false, true, true]

/-- C3: the seqlock guarantee fails on the code.  UpdatePoseData publishes
frame_id first, not last, so a reader can observe the same frame_id before
and after its copy and still obtain view 0 from tick 1 and view 1 from
tick 2 — a torn read. -/
theorem update_pose_data_seqlock_torn : ¬ SeqlockConsistent := by
  intro h
  have h2 := h tornSchedule ⟨2, 1, 1, 2, 2, 2⟩ (by decide) (by decide)
  exact absurd h2.1 (by decide)

/-! ## Client connect sequence (src/src/client/service_connection.cpp)

IPC outcomes are environment parameters.  The effect trace records, in
order, which endpoints Connect touched; control-channel operations are the
controlConnect / controlSend / controlRecv effects. -/

def PROTOCOL_VERSION : Nat := 2

inductive ConnectEffect
  | shmOpen
  | controlConnect
  | controlSend (t : MessageType)
  | controlRecv
deriving DecidableEq, Repr

/-- Outcomes of the environment during ServiceConnection::Connect.  Each
metadata flag covers the send/receive/size checks of that query. -/
structure ConnectEnv where
  shm_open_ok : Bool
  protocol_version : Nat
  control_connect_ok : Bool
  connect_request_ok : Bool
  runtime_props_ok : Bool
  system_props_ok : Bool
  view_configs_ok : Bool
  interaction_profiles_ok : Bool
deriving DecidableEq, Repr

/-- The trace of one metadata query (QueryStaticMetadata sends the request
and reads the response). -/
def queryTrace (t : MessageType) : List ConnectEffect :=
  [.controlSend t, .controlRecv]

/-- ServiceConnection::Connect: open shared memory, check protocol_version,
connect the control channel, send CONNECT, query the four metadata blocks.
Returns success and the ordered effect trace. -/
def ServiceConnectionConnect (connected : Bool) (env : ConnectEnv) :
    Bool × List ConnectEffect :=
  if connected then (true, [])
  else if !env.shm_open_ok then (false, [.shmOpen])
  else if env.protocol_version ≠ PROTOCOL_VERSION then (false, [.shmOpen])
  else if !env.control_connect_ok then (false, [.shmOpen, .controlConnect])
  else if !env.connect_request_ok then
    (false, [.shmOpen, .controlConnect] ++ queryTrace .connect)
  else if !env.runtime_props_ok then
    (false, [.shmOpen, .controlConnect] ++ queryTrace .connect ++
      queryTrace .getRuntimeProperties)
  else if !env.system_props_ok then
    (false, [.shmOpen, .controlConnect] ++ queryTrace .connect ++
      queryTrace .getRuntimeProperties ++ queryTrace .getSystemProperties)
  else if !env.view_configs_ok then
    (false, [.shmOpen, .controlConnect] ++ queryTrace .connect ++
      queryTrace .getRuntimeProperties ++ queryTrace .getSystemProperties ++
      queryTrace .getViewConfigurations)
  else if !env.interaction_profiles_ok then
    (false, [.shmOpen, .controlConnect] ++ queryTrace .connect ++
      queryTrace .getRuntimeProperties ++ queryTrace .getSystemProperties ++
      queryTrace .getViewConfigurations ++ queryTrace .getInteractionProfiles)
  else
    (true, [.shmOpen, .controlConnect] ++ queryTrace .connect ++
      queryTrace .getRuntimeProperties ++ queryTrace .getSystemProperties ++
      queryTrace .getViewConfigurations ++ queryTrace .getInteractionProfiles)

/-- xrCreateInstance reduced to its control flow: validation, Connect, then
AllocateHandle over the connection (0 means allocation failed). -/
def xrCreateInstanceResult (createInfoValid : Bool) (connectResult : Bool)
    (allocatedHandle : Nat) : XrResult :=
  if !createInfoValid then .errorValidationFailure
  else if !connectResult then .errorRuntimeFailure
  else if allocatedHandle = 0 then .errorRuntimeFailure
  else .success

/-- C6: when the shared-memory protocol_version differs from the client's
compile-time constant, Connect fails having touched only shared memory — no
control-channel effect appears in its trace — and instance creation returns
RuntimeFailure. -/
theorem protocol_version_gate (env : ConnectEnv)
    (hshm : env.shm_open_ok = true) (hver : env.protocol_version ≠ PROTOCOL_VERSION) :
    ServiceConnectionConnect false env = (false, [ConnectEffect.shmOpen]) ∧
    (∀ e ∈ (ServiceConnectionConnect false env).2,
      e ≠ ConnectEffect.controlConnect ∧ (∀ t, e ≠ ConnectEffect.controlSend t) ∧
      e ≠ ConnectEffect.controlRecv) ∧
    (∀ h : Nat, xrCreateInstanceResult true (ServiceConnectionConnect false env).1 h =
      XrResult.errorRuntimeFailure) := by
  have hconn : ServiceConnectionConnect false env = (false, [ConnectEffect.shmOpen]) := by
    simp [ServiceConnectionConnect, hshm, hver]
  refine ⟨hconn, ?_, ?_⟩
  · intro e he
    rw [hconn] at he
    simp at he
    subst he
    exact ⟨by decide, fun t => fun hcon => ConnectEffect.noConfusion hcon, by decide⟩
  · intro h
    rw [hconn]
    rfl

/-- Witness for protocol_version_gate at a concrete environment. -/
theorem protocol_version_gate_witness :
    ((⟨true, 3, true, true, true, true, true, true⟩ : ConnectEnv).shm_open_ok = true ∧
      (⟨true, 3, true, true, true, true, true, true⟩ : ConnectEnv).protocol_version ≠
        PROTOCOL_VERSION) ∧
    (ServiceConnectionConnect false ⟨true, 3, true, true, true, true, true, true⟩ =
        (false, [ConnectEffect.shmOpen]) ∧
    (∀ e ∈ (ServiceConnectionConnect false ⟨true, 3, true, true, true, true, true, true⟩).2,
      e ≠ ConnectEffect.controlConnect ∧ (∀ t, e ≠ ConnectEffect.controlSend t) ∧
      e ≠ ConnectEffect.controlRecv) ∧
    (∀ h : Nat, xrCreateInstanceResult true
        (ServiceConnectionConnect false ⟨true, 3, true, true, true, true, true, true⟩).1 h =
      XrResult.errorRuntimeFailure)) :=
  ⟨⟨rfl, by decide⟩,
    protocol_version_gate ⟨true, 3, true, true, true, true, true, true⟩ rfl (by decide)⟩

/-! ## Space location (src/src/client/runtime.cpp, xrLocateSpace / BuildDeviceMap)

Pose scalars are carried as rationals standing in for the C float literals
(xrLocateSpace only copies them; no arithmetic is performed).  The location
out-parameter's prior contents are a parameter, since the flags-zero paths
leave location->pose unwritten. -/

structure XrPosef where
  qx : Rat
  qy : Rat
  qz : Rat
  qw : Rat
  px : Rat
  py : Rat
  pz : Rat
deriving DecidableEq, Repr

/-- The fixed reference-space pose: identity orientation at eye height
(the literal 1.6f written as 8/5). -/
def identityEyeHeightPose : XrPosef := ⟨0, 0, 0, 1, 0, 8 / 5, 0⟩

/-- XR_SPACE_LOCATION_{ORIENTATION,POSITION}_{VALID,TRACKED}_BIT combined,
the flag word both success paths of xrLocateSpace store. -/
def allLocationFlags : Nat := 1 ||| 2 ||| 4 ||| 8

def MAX_TRACKED_DEVICES : Nat := 16

structure DevicePoseShm where
  user_path : String
  pose : XrPosef
  is_active : Bool
deriving DecidableEq, Repr

/-- A zeroed DevicePose entry of the shared-memory array. -/
def defaultDevicePose : DevicePoseShm := ⟨"", ⟨0, 0, 0, 0, 0, 0, 0⟩, false⟩

/-- The device table of the current shared-memory frame. -/
structure FrameDevices where
  device_count : Nat
  device_poses : List DevicePoseShm
deriving DecidableEq, Repr

def deviceAt (frame : FrameDevices) (i : Nat) : DevicePoseShm :=
  frame.device_poses.getD i defaultDevicePose

/-- The loop body of BuildDeviceMap over the index list. -/
def buildDeviceMapIdx (frame : FrameDevices) : List Nat → List (String × Nat) → List (String × Nat)
  | [], m => m
  | i :: is, m =>
      buildDeviceMapIdx frame is
        (if (deviceAt frame i).user_path = "" then m
         else assocSet (deviceAt frame i).user_path i m)

/-- BuildDeviceMap: map each non-empty device user_path to its index, for
indices below both device_count and MAX_TRACKED_DEVICES. -/
def BuildDeviceMap (frame : FrameDevices) : List (String × Nat) :=
  buildDeviceMapIdx frame (List.range (min frame.device_count MAX_TRACKED_DEVICES)) []

/-- The g_device_path_to_index cache together with its g_device_map_built
flag. -/
structure DeviceMapCache where
  built : Bool
  map : List (String × Nat)
deriving DecidableEq, Repr

/-- The map FindDeviceIndex consults: the cache when already built,
otherwise the map freshly built from the current frame. -/
def effectiveDeviceMap (cache : DeviceMapCache) (frame : FrameDevices) :
    List (String × Nat) :=
  if cache.built then cache.map else BuildDeviceMap frame

/-- FindDeviceIndex: build the map if needed and look the user path up
(none models the C++ -1). -/
def FindDeviceIndex (cache : DeviceMapCache) (frame : FrameDevices) (user_path : String) :
    Option Nat :=
  assocFind user_path (effectiveDeviceMap cache frame)

/-- The client tables xrLocateSpace consults. -/
structure LocateTables where
  sessions : List (Nat × Nat)
  spaces : List (Nat × Nat)
  action_spaces : List (Nat × (Nat × Nat))
  paths : PathState
  device_cache : DeviceMapCache
deriving DecidableEq, Repr

structure SpaceLocation where
  locationFlags : Nat
  pose : XrPosef
deriving DecidableEq, Repr

/-- xrLocateSpace.  An action space resolves its stored subaction path to a
string, finds the device index, and reports the device pose when active;
every failure path stores locationFlags = 0 and leaves the pose as it was.
A space with no action-space entry is a reference space: fixed pose, all
four flag bits. -/
def xrLocateSpace (tbl : LocateTables) (shared : Option FrameDevices) (space : Nat)
    (prior : XrPosef) : SpaceLocation :=
  match assocFind space tbl.action_spaces with
  | some asd =>
    match shared with
    | none => ⟨0, prior⟩
    | some frame =>
      let device_index : Option Nat :=
        if asd.2 ≠ 0 then
          match assocFind space tbl.spaces with
          | some session =>
            match assocFind session tbl.sessions with
            | some _ =>
                FindDeviceIndex tbl.device_cache frame
                  (xrPathToString tbl.paths asd.2 256).buffer
            | none => none
          | none => none
        else none
      match device_index with
      | some i =>
          if i < MAX_TRACKED_DEVICES then
            if (deviceAt frame i).is_active then ⟨allLocationFlags, (deviceAt frame i).pose⟩
            else ⟨0, prior⟩
          else ⟨0, prior⟩
      | none => ⟨0, prior⟩
  | none => ⟨allLocationFlags, identityEyeHeightPose⟩

theorem buildDeviceMapIdx_lt (frame : FrameDevices) (bound : Nat) :
    ∀ (is : List Nat), (∀ i ∈ is, i < bound) →
      ∀ (m : List (String × Nat)), (∀ p ∈ m, p.2 < bound) →
        ∀ p ∈ buildDeviceMapIdx frame is m, p.2 < bound := by
  intro is
  induction is with
  | nil =>
    intro _ m hm p hp
    exact hm p hp
  | cons i is ih =>
    intro his m hm p hp
    refine ih (fun j hj => his j (List.mem_cons_of_mem _ hj)) _ ?_ p hp
    intro q hq
    by_cases hempty : (deviceAt frame i).user_path = ""
    · rw [buildDeviceMapIdx] at hp
      exact hm q (by simpa [hempty] using hq)
    · simp only [hempty, if_neg, if_false] at hq
      rcases assocSet_mem _ _ _ _ hq with h | h
      · rw [h]
        exact his i (by simp)
      · exact hm q h

theorem buildDeviceMap_lt (frame : FrameDevices) :
    ∀ p ∈ BuildDeviceMap frame, p.2 < MAX_TRACKED_DEVICES := by
  intro p hp
  refine buildDeviceMapIdx_lt frame MAX_TRACKED_DEVICES _ ?_ [] (by simp) p hp
  intro i hi
  have := List.mem_range.mp hi
  omega

/-- C7: a reference space (no action-space entry) locates as the fixed
identity-orientation pose at eye height with the valid (and tracked) flag
bits set; an action space resolves the user path from its store of the
action's subaction path, looks that string up in the map built from the
current frame's device table, and reports the device's pose with all four
flag bits when the device is found and is_active, and locationFlags = 0
otherwise (device absent from the table, or inactive). -/
theorem locate_space_resolution (tbl : LocateTables) (frame : FrameDevices) (space : Nat)
    (prior : XrPosef) (hbuilt : tbl.device_cache.built = false) :
    (Nat.testBit allLocationFlags 0 = true ∧ Nat.testBit allLocationFlags 1 = true) ∧
    (assocFind space tbl.action_spaces = none →
      xrLocateSpace tbl (some frame) space prior = ⟨allLocationFlags, identityEyeHeightPose⟩) ∧
    (∀ action sub session inst,
      assocFind space tbl.action_spaces = some (action, sub) →
      sub ≠ 0 →
      assocFind space tbl.spaces = some session →
      assocFind session tbl.sessions = some inst →
      (∀ i, assocFind (xrPathToString tbl.paths sub 256).buffer (BuildDeviceMap frame) = some i →
        ((deviceAt frame i).is_active = true →
          xrLocateSpace tbl (some frame) space prior =
            ⟨allLocationFlags, (deviceAt frame i).pose⟩) ∧
        ((deviceAt frame i).is_active = false →
          xrLocateSpace tbl (some frame) space prior = ⟨0, prior⟩)) ∧
      (assocFind (xrPathToString tbl.paths sub 256).buffer (BuildDeviceMap frame) = none →
        xrLocateSpace tbl (some frame) space prior = ⟨0, prior⟩)) := by
  refine ⟨⟨by decide, by decide⟩, ?_, ?_⟩
  · intro hnone
    simp [xrLocateSpace, hnone]
  · intro action sub session inst hasd hsub hsp hsess
    have hmap : effectiveDeviceMap tbl.device_cache frame = BuildDeviceMap frame := by
      simp [effectiveDeviceMap, hbuilt]
    constructor
    · intro i hfound
      have hlt : i < MAX_TRACKED_DEVICES := by
        have hmem := assocFind_mem _ _ _ hfound
        exact buildDeviceMap_lt frame _ hmem
      constructor
      · intro hact
        simp [xrLocateSpace, hasd, hsub, hsp, hsess, FindDeviceIndex, hmap, hfound, hlt, hact]
      · intro hact
        simp [xrLocateSpace, hasd, hsub, hsp, hsess, FindDeviceIndex, hmap, hfound, hlt, hact]
    · intro hfound
      simp [xrLocateSpace, hasd, hsub, hsp, hsess, FindDeviceIndex, hmap, hfound]

/-- Concrete tables used by the locate-space witness. -/
def locateTablesW : LocateTables :=
  ⟨[(40, 30)], [(50, 40)], [(50, (7, 3))],
    ⟨[(3, "/user/hand/left")], [("/user/hand/left", 3)]⟩, ⟨false, []⟩⟩

def frameDevicesW : FrameDevices :=
  ⟨1, [⟨"/user/hand/left", ⟨0, 0, 0, 1, 1, 2, 3⟩, true⟩]⟩

/-- Witness for locate_space_resolution at concrete tables. -/
theorem locate_space_resolution_witness :
    locateTablesW.device_cache.built = false ∧
    ((Nat.testBit allLocationFlags 0 = true ∧ Nat.testBit allLocationFlags 1 = true) ∧
    (assocFind 50 locateTablesW.action_spaces = none →
      xrLocateSpace locateTablesW (some frameDevicesW) 50 ⟨0, 0, 0, 0, 0, 0, 0⟩ =
        ⟨allLocationFlags, identityEyeHeightPose⟩) ∧
    (∀ action sub session inst,
      assocFind 50 locateTablesW.action_spaces = some (action, sub) →
      sub ≠ 0 →
      assocFind 50 locateTablesW.spaces = some session →
      assocFind session locateTablesW.sessions = some inst →
      (∀ i, assocFind (xrPathToString locateTablesW.paths sub 256).buffer
          (BuildDeviceMap frameDevicesW) = some i →
        ((deviceAt frameDevicesW i).is_active = true →
          xrLocateSpace locateTablesW (some frameDevicesW) 50 ⟨0, 0, 0, 0, 0, 0, 0⟩ =
            ⟨allLocationFlags, (deviceAt frameDevicesW i).pose⟩) ∧
        ((deviceAt frameDevicesW i).is_active = false →
          xrLocateSpace locateTablesW (some frameDevicesW) 50 ⟨0, 0, 0, 0, 0, 0, 0⟩ =
            ⟨0, ⟨0, 0, 0, 0, 0, 0, 0⟩⟩)) ∧
      (assocFind (xrPathToString locateTablesW.paths sub 256).buffer
          (BuildDeviceMap frameDevicesW) = none →
        xrLocateSpace locateTablesW (some frameDevicesW) 50 ⟨0, 0, 0, 0, 0, 0, 0⟩ =
          ⟨0, ⟨0, 0, 0, 0, 0, 0, 0⟩⟩))) :=
  ⟨rfl, locate_space_resolution locateTablesW frameDevicesW 50 ⟨0, 0, 0, 0, 0, 0, 0⟩ rfl⟩

/-! ## Binding resolver (src/src/client/runtime.cpp, GetActionState /
IsBindingMatch, and src/src/client/service_connection.cpp, GetInputState)

The transport is a parameter resp giving, per (user_path, component_path)
pair, the decoded response payload when a well-formed RESPONSE of
sufficient size arrives (none covers send/receive failure, a wrong type and
a short payload). -/

def charsMatchAt : List Char → List Char → Bool
  | [], _ => true
  | _ :: _, [] => false
  | a :: as, b :: bs => a = b && charsMatchAt as bs

/-- First index at which the needle occurs (std::string::find). -/
def findSubIdx (needle : List Char) : List Char → Option Nat
  | [] => if needle = [] then some 0 else none
  | c :: rest =>
      if charsMatchAt needle (c :: rest) then some 0
      else
        match findSubIdx needle rest with
        | some i => some (i + 1)
        | none => none

/-- ExtractUserPath: the part of the binding path before "/input/". -/
def ExtractUserPath (full : String) : String :=
  match findSubIdx "/input/".toList full.toList with
  | some i => ((full.toList).take i).asString
  | none => full

/-- ExtractComponentPath: the part starting at "/input/" (or "/output/"). -/
def ExtractComponentPath (full : String) : String :=
  match findSubIdx "/input/".toList full.toList with
  | some i => ((full.toList).drop i).asString
  | none =>
    match findSubIdx "/output/".toList full.toList with
    | some i => ((full.toList).drop i).asString
    | none => full

structure ActionData where
  typ : Nat
  action_set : Nat
  name : String
  subaction_paths : List Nat
deriving DecidableEq, Repr

structure BindingData where
  action : Nat
  subaction_path : Nat
  profiles : List Nat
deriving DecidableEq, Repr

/-- The client tables GetActionState consults.  Bindings are the iteration
order of g_bindings. -/
structure ClientTables where
  sessions : List (Nat × Nat)
  actions : List (Nat × ActionData)
  bindings : List (Nat × BindingData)
  current_interaction_profile : Nat
  paths : PathState
deriving DecidableEq, Repr

/-- IsBindingMatch: same action, no subaction conflict (conflict only when
query and binding subactions are both non-null and differ), and, when a
current interaction profile is set, the binding's profile list contains it. -/
def IsBindingMatch (cur : Nat) (bd : BindingData) (action subaction : Nat) : Bool :=
  if bd.action ≠ action then false
  else if subaction ≠ 0 ∧ bd.subaction_path ≠ 0 ∧ bd.subaction_path ≠ subaction then false
  else if cur ≠ 0 ∧ ¬ (bd.profiles.contains cur = true) then false
  else true

/-- The decoded wire payload of an InputStateXResponse. -/
structure InputStateWire (α : Type) where
  is_available : Nat
  value : α
deriving DecidableEq, Repr

/-- ServiceConnection::GetInputState: succeed with the decoded value
whenever a well-formed response arrives.  The response's is_available field
is not consulted (service_connection.cpp, template GetInputState). -/
def connGetInputState {α : Type} (resp : String → String → Option (InputStateWire α))
    (u c : String) : Option α :=
  match resp u c with
  | none => none
  | some r => some r.value

/-- The (user_path, component_path) pair GetActionState derives for a
binding token: resolve the token to a string (256-byte buffer) and split it. -/
def bindingQueryArgs (paths : PathState) (binding_path : Nat) : String × String :=
  (ExtractUserPath (xrPathToString paths binding_path 256).buffer,
   ExtractComponentPath (xrPathToString paths binding_path 256).buffer)

/-- The loop of GetActionState over g_bindings: the first matching binding
whose typed query succeeds supplies the value. -/
def GetActionStateLoop {α : Type} (paths : PathState) (cur : Nat)
    (query : String → String → Option α) (action subaction : Nat) :
    List (Nat × BindingData) → Option α
  | [] => none
  | (bp, bd) :: rest =>
      if IsBindingMatch cur bd action subaction then
        match query (bindingQueryArgs paths bp).1 (bindingQueryArgs paths bp).2 with
        | some v => some v
        | none => GetActionStateLoop paths cur query action subaction rest
      else GetActionStateLoop paths cur query action subaction rest

inductive ActionStateOut (α : Type)
  | err (r : XrResult)
  | state (isActive : Bool) (value : Option α)
deriving DecidableEq

/-- GetActionState: HANDLE_INVALID for an unknown session; an unknown action
or an unsuccessful loop leaves the caller-initialized inactive state; a
successful loop reports active with the value. -/
def GetActionState {α : Type} (tbl : ClientTables) (query : String → String → Option α)
    (session action subaction : Nat) : ActionStateOut α :=
  match assocFind session tbl.sessions with
  | none => .err .errorHandleInvalid
  | some _ =>
    match assocFind action tbl.actions with
    | none => .state false none
    | some _ =>
      match GetActionStateLoop tbl.paths tbl.current_interaction_profile query action subaction
          tbl.bindings with
      | some v => .state true (some v)
      | none => .state false none

/-- The filter of the claim, step by step: same action, non-conflicting
subaction (Null on either side matches), profile list contains the current
profile. -/
def claimKeeps (cur action subaction : Nat) (bd : BindingData) : Bool :=
  (bd.action == action) &&
  (subaction == 0 || bd.subaction_path == 0 || bd.subaction_path == subaction) &&
  bd.profiles.contains cur

/-- First surviving binding whose query succeeds, in table order. -/
def firstAvailableBinding {α : Type} (paths : PathState)
    (query : String → String → Option α) : List (Nat × BindingData) → Option α
  | [] => none
  | (bp, _) :: rest =>
      match query (bindingQueryArgs paths bp).1 (bindingQueryArgs paths bp).2 with
      | some v => some v
      | none => firstAvailableBinding paths query rest

theorem isBindingMatch_eq (cur action subaction : Nat) (bd : BindingData) (hcur : cur ≠ 0) :
    IsBindingMatch cur bd action subaction = claimKeeps cur action subaction bd := by
  unfold IsBindingMatch claimKeeps
  by_cases h1 : bd.action = action <;>
    by_cases h2 : subaction = 0 <;>
      by_cases h3 : bd.subaction_path = 0 <;>
        by_cases h4 : bd.subaction_path = subaction <;>
          by_cases h5 : bd.profiles.contains cur = true <;>
            simp [h1, h2, h3, h4, h5, hcur]

theorem getActionStateLoop_eq_filter {α : Type} (paths : PathState) (cur : Nat)
    (query : String → String → Option α) (action subaction : Nat) (hcur : cur ≠ 0) :
    ∀ bs : List (Nat × BindingData),
      GetActionStateLoop paths cur query action subaction bs =
        firstAvailableBinding paths query
          (bs.filter (fun b => claimKeeps cur action subaction b.2)) := by
  intro bs
  induction bs with
  | nil => rfl
  | cons b rest ih =>
    obtain ⟨bp, bd⟩ := b
    rw [GetActionStateLoop]
    by_cases hm : IsBindingMatch cur bd action subaction = true
    · have hk : claimKeeps cur action subaction bd = true := by
        rw [← isBindingMatch_eq cur action subaction bd hcur]
        exact hm
      cases hq : query (bindingQueryArgs paths bp).1 (bindingQueryArgs paths bp).2 with
      | some v => simp [hm, hq, List.filter_cons, hk, firstAvailableBinding]
      | none => simp [hm, hq, List.filter_cons, hk, firstAvailableBinding, ih]
    · have hk : claimKeeps cur action subaction bd = false := by
        rw [← isBindingMatch_eq cur action subaction bd hcur]
        exact Bool.not_eq_true _ ▸ (by simpa using hm)
      simp [hm, List.filter_cons, hk, ih]

/-- C5 (amended): with a known session and action and a non-null current
interaction profile, the action-state query keeps exactly the bindings of
the claim's three filters and reports active with the value of the first
surviving binding whose typed input query returns a well-formed response —
the response's is_available flag is ignored by the connection layer — and
inactive only when no surviving binding yields a well-formed response. -/
theorem get_action_state_resolution {α : Type} (tbl : ClientTables)
    (resp : String → String → Option (InputStateWire α)) (session action subaction inst : Nat)
    (hs : assocFind session tbl.sessions = some inst)
    (ha : (assocFind action tbl.actions).isSome = true)
    (hcur : tbl.current_interaction_profile ≠ 0) :
    GetActionState tbl (connGetInputState resp) session action subaction =
      match firstAvailableBinding tbl.paths (connGetInputState resp)
          (tbl.bindings.filter (fun b =>
            claimKeeps tbl.current_interaction_profile action subaction b.2)) with
      | some v => ActionStateOut.state true (some v)
      | none => ActionStateOut.state false none := by
  unfold GetActionState
  rw [hs]
  cases hact : assocFind action tbl.actions with
  | none => rw [hact] at ha; simp at ha
  | some ad =>
    rw [getActionStateLoop_eq_filter tbl.paths tbl.current_interaction_profile
      (connGetInputState resp) action subaction hcur tbl.bindings]

/-- Concrete tables for the binding-resolver witness. -/
def clientTablesW : ClientTables :=
  ⟨[(4, 5)], [(1, ⟨2, 1, "trigger", [3]⟩)], [(7, ⟨1, 3, [9]⟩)], 9,
    ⟨[(7, "/user/hand/right/input/trigger/value")],
     [("/user/hand/right/input/trigger/value", 7)]⟩⟩

/-- Witness for get_action_state_resolution at concrete tables: the single
binding survives the filters and its query succeeds with value 42, so the
state is active with 42. -/
theorem get_action_state_resolution_witness :
    (assocFind 4 clientTablesW.sessions = some 5 ∧
      (assocFind 1 clientTablesW.actions).isSome = true ∧
      clientTablesW.current_interaction_profile ≠ 0) ∧
    GetActionState clientTablesW
        (connGetInputState (fun _ _ => some (⟨1, (42 : Nat)⟩ : InputStateWire Nat))) 4 1 3 =
      match firstAvailableBinding clientTablesW.paths
          (connGetInputState (fun _ _ => some (⟨1, (42 : Nat)⟩ : InputStateWire Nat)))
          (clientTablesW.bindings.filter (fun b =>
            claimKeeps clientTablesW.current_interaction_profile 1 3 b.2)) with
      | some v => ActionStateOut.state true (some v)
      | none => ActionStateOut.state false none :=
  ⟨⟨by decide, by decide, by decide⟩,
    get_action_state_resolution clientTablesW
      (fun _ _ => some (⟨1, (42 : Nat)⟩ : InputStateWire Nat)) 4 1 3 5
      (by decide) (by decide) (by decide)⟩

/-- C5 as the specification states it for availability: if no binding's
typed input query reports the datum available (every response carries
is_available = 0), the state is reported inactive. -/
def NoAvailableImpliesInactive : Prop :=
  ∀ (tbl : ClientTables) (resp : String → String → Option (InputStateWire Nat))
    (session action subaction : Nat),
    (∀ u c r, resp u c = some r → r.is_available = 0) →
    ∀ b v, GetActionState tbl (connGetInputState resp) session action subaction =
      ActionStateOut.state b v → b = false

/-- C5 (counterexample): a driver response declaring the component
unavailable (is_available = 0) still reports the state active with the
response's value, because the connection layer never reads is_available. -/
theorem getActionState_ignores_available_cex : ¬ NoAvailableImpliesInactive := by
  intro h
  have h2 := h clientTablesW (fun _ _ => some (⟨0, (42 : Nat)⟩ : InputStateWire Nat)) 4 1 3
    (fun u c r hr => by injection hr with h3; subst h3; rfl) true (some 42) (by decide)
  exact absurd h2 (by decide)

end Ox
